/-
Verification of the documentation-section injector script
(`scripts/add-examples-to-docs.py`) of the event4u-app/data-helpers repository.

The script's string manipulation is embedded over `List Char`:
Python's `x in s`, `s.replace(old, new)`, `s.split(sep, 1)`, `s.strip()`
and `path.split("/")[-1]` become executable Lean functions, and
`add_sections_to_file` / `main` become `addSections` / `runBatch`.
-/
import Mathlib

set_option maxRecDepth 100000

namespace DocInjector

/-- Python's substring test `pat in s` (always true for the empty pattern). -/
def containsSub (pat : List Char) : List Char → Bool
  | [] => pat.isPrefixOf []
  | c :: t => pat.isPrefixOf (c :: t) || containsSub pat t

/-- Fuel-indexed scanner behind `pyReplace`.  With `fuel ≥ s.length` it performs
the left-to-right non-overlapping replace-all scan of CPython's `str.replace`
for a non-empty pattern `old`: at each position, if `old` is a prefix, emit
`new` and skip past the match; otherwise keep the character and move on. -/
def pyReplaceAux (old new : List Char) : Nat → List Char → List Char
  | 0, s => s
  | fuel + 1, s =>
    match s with
    | [] => []
    | c :: t =>
      if old.isPrefixOf (c :: t) then
        new ++ pyReplaceAux old new fuel (t.drop (old.length - 1))
      else
        c :: pyReplaceAux old new fuel t

/-- Python's `s.replace(old, new)` for a non-empty `old` (the script only ever
replaces the literal anchor `"## See Also"`). -/
def pyReplace (old new s : List Char) : List Char :=
  pyReplaceAux old new s.length s

/-- Python's `s.split(sep, 1)` for non-empty `sep`, as an option: `some (p, q)`
when `sep` occurs and `s = p ++ sep ++ q` with `p` before the first occurrence,
`none` when `sep` does not occur. -/
def splitFirst (sep : List Char) : List Char → Option (List Char × List Char)
  | [] => none
  | c :: t =>
    if sep.isPrefixOf (c :: t) then
      some ([], t.drop (sep.length - 1))
    else
      match splitFirst sep t with
      | some (p, q) => some (c :: p, q)
      | none => none

/-- Python's `path.split("/")[-1]`: everything after the last slash. -/
def lastSeg (s : List Char) : List Char :=
  (s.reverse.takeWhile (fun c => !(c = '/'))).reverse

/-- ASCII whitespace recognised by Python's `str.strip`. -/
def isPySpace (c : Char) : Bool :=
  c = ' ' || c = '\t' || c = '\n' || c = '\r' || c = '\x0b' || c = '\x0c'

/-- Python's `s.strip()` (the script only strips ASCII text). -/
def strip (s : List Char) : List Char :=
  ((s.dropWhile isPySpace).reverse.dropWhile isPySpace).reverse

/-- Interleave the separator `sep` between the given segments:
`joinSep sep [p0, p1, ..., pn] = p0 ++ sep ++ p1 ++ sep ++ ... ++ sep ++ pn`.
A text in which a pattern occurs exactly `n` times (in the left-to-right
non-overlapping scan sense) is `joinSep pat parts` for its `n + 1`
pattern-free gap segments `parts`. -/
def joinSep (sep : List Char) : List (List Char) → List Char
  | [] => []
  | [p] => p
  | p :: q :: rest => p ++ sep ++ joinSep sep (q :: rest)

/-- Holds when, scanning `joinSep old parts` left to right, no occurrence of
`old` starts inside any gap segment of `parts`: the interleaved separators are
exactly the occurrences of `old` in the joined text. -/
def noSplitOccur (old : List Char) : List (List Char) → Bool
  | [] => true
  | p :: rest =>
    ((List.range p.length).all
        (fun i => !(old.isPrefixOf ((joinSep old (p :: rest)).drop i))))
      && noSplitOccur old rest

/-! ### Embedding of `add_sections_to_file` -/

/-- The idempotence-guard marker (`"## Code Examples" in content`). -/
def codeMarker : List Char := "## Code Examples".data

/-- The splice anchor (`"## See Also"`). -/
def anchorMark : List Char := "## See Also".data

/-- The separator of a test entry (`test.split(" - ", 1)`). -/
def sepDash : List Char := " - ".data

/-- The fixed link base hardcoded in both f-strings of the script. -/
def baseURL : List Char :=
  "https://github.com/event4u-app/data-helpers/blob/main/".data

/-- One `(title, path, description)` tuple of a config's `"examples"` list. -/
structure ExampleRef where
  title : List Char
  path : List Char
  desc : List Char
deriving DecidableEq

/-- One value of the `DOCS_CONFIG` table: `"examples"`, `"tests"` (raw entry
strings, as in the source) and `"test_filter"`. -/
structure PageConfig where
  examples : List ExampleRef
  tests : List (List Char)
  test_filter : List Char
deriving DecidableEq

/-- Initial value of `examples_section` (line 178 of the script). -/
def examplesHeader : List Char :=
  "\n## Code Examples\n\nThe following working examples demonstrate this feature:\n\n".data

/-- Closing sentence appended to `examples_section` (line 183). -/
def examplesClosing : List Char :=
  "\nAll examples are fully tested and can be run directly.\n".data

/-- Initial value of `tests_section` (line 185). -/
def testsHeader : List Char :=
  "\n## Related Tests\n\nThe functionality is thoroughly tested. Key test files:\n\n".data

/-- The f-string of line 181: one bullet per example tuple. -/
def exampleBullet (e : ExampleRef) : List Char :=
  "- [**".data ++ e.title ++ "**](".data ++ baseURL ++ e.path ++ ") - ".data
    ++ e.desc ++ "\n".data

/-- Lines 186-199: one bullet per test entry.  An entry containing `" - "` is
split once into path and description, both stripped; the link label is the
final path segment.  An entry without `" - "` gets no trailing description. -/
def testBullet (t : List Char) : List Char :=
  match splitFirst sepDash t with
  | some (p, q) =>
    "- [".data ++ lastSeg (strip p) ++ "](".data ++ baseURL ++ strip p
      ++ ") - ".data ++ strip q ++ "\n".data
  | none =>
    "- [".data ++ lastSeg (strip t) ++ "](".data ++ baseURL ++ strip t
      ++ ")\n".data

/-- The trailer f-string of line 201, fence included. -/
def testsTrailer (filterLabel : List Char) : List Char :=
  "\nRun the tests:\n\n```bash\n# Run tests\ntask test:unit -- --filter=".data
    ++ filterLabel ++ "\n```\n".data

/-- The full `examples_section` accumulated by the loop of lines 180-183. -/
def buildExamples (refs : List ExampleRef) : List Char :=
  refs.foldl (fun acc e => acc ++ exampleBullet e) examplesHeader ++ examplesClosing

/-- The full `tests_section` accumulated by the loop of lines 186-201. -/
def buildTests (cfg : PageConfig) : List Char :=
  cfg.tests.foldl (fun acc t => acc ++ testBullet t) testsHeader
    ++ testsTrailer cfg.test_filter

/-- The replacement string of line 204:
`examples_section + tests_section + "\n## See Also"`. -/
def insertedBlock (cfg : PageConfig) : List Char :=
  buildExamples cfg.examples ++ buildTests cfg ++ "\n## See Also".data

/-- Outcome of `add_sections_to_file` on a document text: the two `return
False` guards (lines 168-175) and the updated text written back (line 208). -/
inductive Outcome where
  | skippedAlreadyPresent
  | skippedNoAnchor
  | updated (newContent : List Char)
deriving DecidableEq

/-- Lines 167-208 of `add_sections_to_file`, given the text read from disk. -/
def addSections (content : List Char) (cfg : PageConfig) : Outcome :=
  if containsSub codeMarker content then
    Outcome.skippedAlreadyPresent
  else if !containsSub anchorMark content then
    Outcome.skippedNoAnchor
  else
    Outcome.updated (pyReplace anchorMark (insertedBlock cfg) content)

/-- The document text on disk after one run of `add_sections_to_file`:
unchanged on a skip, the new content when it was written back. -/
def applyOnce (content : List Char) (cfg : PageConfig) : List Char :=
  match addSections content cfg with
  | Outcome.updated s => s
  | _ => content

/-! ### Embedding of the batch driver `main` -/

/-- I/O failure kinds a document can hit (read on line 164, write on line 207). -/
inductive FileErr where
  | readFail
  | writeFail
deriving DecidableEq

deriving instance DecidableEq for Except

/-- One iteration of the loop body of `main` (lines 218-220): run
`add_sections_to_file` on the document.  A failed read raises, modelled as
`Except.error`; otherwise the call returns the boolean counted by `main`. -/
def processDoc (doc : Except FileErr (List Char)) (cfg : PageConfig) :
    Except FileErr Bool :=
  match doc with
  | Except.error e => Except.error e
  | Except.ok content =>
    match addSections content cfg with
    | Outcome.updated _ => Except.ok true
    | _ => Except.ok false

/-- The batch driver `main` (lines 214-222).  There is no `try`/`except` in the
source, so an exception raised while processing one document propagates:
the remaining documents are not processed and the summary count (line 222)
is never printed, modelled by `Except.error`. -/
def runBatch : List (Except FileErr (List Char) × PageConfig) → Except FileErr Nat
  | [] => Except.ok 0
  | (doc, cfg) :: rest =>
    match processDoc doc cfg with
    | Except.error e => Except.error e
    | Except.ok updated =>
      match runBatch rest with
      | Except.error e => Except.error e
      | Except.ok n => Except.ok (if updated then n + 1 else n)

/-- Modelled from the spec: the batch driver the spec describes, in which
"all per-document errors are caught at the batch-driver level and reported
individually; no single document's failure aborts the batch" and the final
summary count is always produced.  This error-catching driver is absent from
the source (`main` has no exception handler); it is defined only to be
compared with `runBatch`. -/
def specCatchingBatch : List (Except FileErr (List Char) × PageConfig) → Nat
  | [] => 0
  | (doc, cfg) :: rest =>
    match processDoc doc cfg with
    | Except.error _ => specCatchingBatch rest
    | Except.ok updated => (if updated then 1 else 0) + specCatchingBatch rest

/-- Modelled from the spec: "ordinary single-replace semantics" — replace only
the first occurrence of `old`, leave the rest untouched.  This is not what
Python's `str.replace` (used on line 204) does; it is defined only to be
compared with `pyReplace`. -/
def replaceFirst (old new s : List Char) : List Char :=
  match splitFirst old s with
  | some (p, q) => p ++ new ++ q
  | none => s

/-! ### Concrete fixtures -/

/-- A minimal config: no examples, no tests, filter label `"X"`. -/
def cfgEmpty : PageConfig := ⟨[], [], "X".data⟩

/-- The `DOCS_CONFIG` entry for
`"starlight/src/content/docs/framework-integration/symfony.md"`
(lines 137-146 of the script). -/
def symfonyConfig : PageConfig :=
  { examples := [⟨"Symfony Doctrine".data,
      "examples/framework-integration/symfony/symfony-doctrine.php".data,
      "Symfony with Doctrine".data⟩]
    tests := ["tests/Unit/Frameworks/Symfony/SymfonyIntegrationTest.php - Symfony integration tests".data,
      "tests-e2e/Symfony/ - End-to-end Symfony tests".data]
    test_filter := "Symfony".data }

/-- A small document holding the anchor once. -/
def docAnchored : List Char := "# Title\n\n## See Also\n- link\n".data

/-- A document holding the anchor twice. -/
def docTwoAnchors : List Char := "A\n## See Also\nB\n## See Also\nC".data

/-! ### Lemmas about the string primitives -/

theorem containsSub_nil_pat : ∀ s : List Char, containsSub [] s = true
  | [] => rfl
  | _ :: _ => by simp [containsSub]

theorem containsSub_append_left (pat : List Char) :
    ∀ a b : List Char, containsSub pat a = true → containsSub pat (a ++ b) = true := by
  intro a
  induction a with
  | nil =>
    intro b h
    simp only [containsSub] at h
    rw [List.isPrefixOf_iff_prefix, List.prefix_nil] at h
    subst h
    exact containsSub_nil_pat _
  | cons c t ih =>
    intro b h
    simp only [containsSub, Bool.or_eq_true] at h
    simp only [List.cons_append, containsSub, Bool.or_eq_true]
    rcases h with h | h
    · left
      rw [List.isPrefixOf_iff_prefix] at h ⊢
      exact h.trans (List.prefix_append (c :: t) b)
    · right
      exact ih b h

theorem containsSub_append_right (pat : List Char) :
    ∀ a b : List Char, containsSub pat b = true → containsSub pat (a ++ b) = true := by
  intro a
  induction a with
  | nil => intro b h; simpa using h
  | cons c t ih =>
    intro b h
    simp only [List.cons_append, containsSub, Bool.or_eq_true]
    right
    exact ih b h

theorem containsSub_middle (pat x m y : List Char) (h : containsSub pat m = true) :
    containsSub pat (x ++ m ++ y) = true :=
  containsSub_append_left pat (x ++ m) y (containsSub_append_right pat x m h)

theorem pyReplaceAux_congr (old new : List Char) :
    ∀ f1 f2 s, s.length ≤ f1 → s.length ≤ f2 →
      pyReplaceAux old new f1 s = pyReplaceAux old new f2 s := by
  intro f1
  induction f1 with
  | zero =>
    intro f2 s h1 _
    have hs : s = [] := List.length_eq_zero.mp (Nat.le_zero.mp h1)
    subst hs
    cases f2 <;> rfl
  | succ f ih =>
    intro f2 s h1 h2
    cases s with
    | nil => cases f2 <;> rfl
    | cons c t =>
      cases f2 with
      | zero => simp at h2
      | succ g =>
        simp only [List.length_cons, Nat.succ_le_succ_iff] at h1 h2
        simp only [pyReplaceAux]
        by_cases hp : old.isPrefixOf (c :: t) = true
        · rw [if_pos hp, if_pos hp]
          have hd : (t.drop (old.length - 1)).length ≤ f := by
            rw [List.length_drop]; omega
          have hd2 : (t.drop (old.length - 1)).length ≤ g := by
            rw [List.length_drop]; omega
          rw [ih g (t.drop (old.length - 1)) hd hd2]
        · rw [if_neg hp, if_neg hp]
          rw [ih g t h1 h2]

theorem pyReplaceAux_no_occur (old new : List Char) :
    ∀ fuel s, s.length ≤ fuel →
      (∀ i, i < s.length → old.isPrefixOf (s.drop i) = false) →
      pyReplaceAux old new fuel s = s := by
  intro fuel
  induction fuel with
  | zero => intro s _ _; rfl
  | succ f ih =>
    intro s hlen h
    cases s with
    | nil => rfl
    | cons c t =>
      have h0 : old.isPrefixOf (c :: t) = false := by
        have := h 0 (by simp)
        simpa using this
      simp only [pyReplaceAux]
      rw [if_neg (by simp [h0])]
      congr 1
      apply ih
      · simp only [List.length_cons, Nat.succ_le_succ_iff] at hlen; exact hlen
      · intro i hi
        have := h (i + 1) (by simp; omega)
        simpa [List.drop_succ_cons] using this

theorem pyReplace_no_occur (old new s : List Char)
    (h : ∀ i, i < s.length → old.isPrefixOf (s.drop i) = false) :
    pyReplace old new s = s :=
  pyReplaceAux_no_occur old new s.length s (Nat.le_refl _) h

theorem pyReplaceAux_exists_mid (old new : List Char) (hold : old ≠ []) :
    ∀ fuel s, s.length ≤ fuel → containsSub old s = true →
      ∃ x y, pyReplaceAux old new fuel s = x ++ new ++ y := by
  intro fuel
  induction fuel with
  | zero =>
    intro s hlen h
    have hs : s = [] := List.length_eq_zero.mp (Nat.le_zero.mp hlen)
    subst hs
    cases old with
    | nil => exact absurd rfl hold
    | cons o ot => simp [containsSub] at h
  | succ f ih =>
    intro s hlen h
    cases s with
    | nil =>
      cases old with
      | nil => exact absurd rfl hold
      | cons o ot => simp [containsSub] at h
    | cons c t =>
      simp only [List.length_cons, Nat.succ_le_succ_iff] at hlen
      by_cases hp : old.isPrefixOf (c :: t) = true
      · refine ⟨[], pyReplaceAux old new f (t.drop (old.length - 1)), ?_⟩
        simp only [pyReplaceAux]
        rw [if_pos hp]
        simp
      · simp only [containsSub, Bool.or_eq_true] at h
        rcases h with h | h
        · exact absurd h hp
        · obtain ⟨x, y, hxy⟩ := ih t hlen h
          refine ⟨c :: x, y, ?_⟩
          simp only [pyReplaceAux]
          rw [if_neg hp, hxy]
          simp

theorem pyReplace_exists_mid (old new s : List Char) (hold : old ≠ [])
    (h : containsSub old s = true) :
    ∃ x y, pyReplace old new s = x ++ new ++ y :=
  pyReplaceAux_exists_mid old new hold s.length s (Nat.le_refl _) h

theorem pyReplace_append (old new : List Char) (hold : old ≠ []) :
    ∀ a b : List Char,
      (∀ i, i < a.length → old.isPrefixOf ((a ++ old ++ b).drop i) = false) →
      pyReplace old new (a ++ old ++ b) = a ++ new ++ pyReplace old new b := by
  intro a
  induction a with
  | nil =>
    intro b _
    cases old with
    | nil => exact absurd rfl hold
    | cons o ot =>
      simp only [List.nil_append]
      show pyReplaceAux (o :: ot) new ((o :: ot) ++ b).length ((o :: ot) ++ b) = _
      have hp : (o :: ot).isPrefixOf ((o :: ot) ++ b) = true := by
        rw [List.isPrefixOf_iff_prefix]
        exact List.prefix_append _ _
      rw [show (o :: ot) ++ b = o :: (ot ++ b) from rfl] at hp ⊢
      rw [show (o :: (ot ++ b)).length = (ot ++ b).length + 1 from rfl]
      simp only [pyReplaceAux]
      rw [if_pos hp]
      have hdrop : (ot ++ b).drop ((o :: ot).length - 1) = b := by
        rw [show (o :: ot).length - 1 = ot.length from by simp]
        exact List.drop_left ot b
      rw [hdrop]
      rw [pyReplaceAux_congr (o :: ot) new (ot ++ b).length b.length b (by simp)
        (Nat.le_refl _)]
      rfl
  | cons c a' ih =>
    intro b h
    have hsh : (c :: a') ++ old ++ b = c :: (a' ++ old ++ b) := by simp
    rw [hsh]
    have h0 : old.isPrefixOf (c :: (a' ++ old ++ b)) = false := by
      have h' := h 0 (by simp)
      rw [List.drop_zero, hsh] at h'
      exact h'
    show pyReplaceAux old new (c :: (a' ++ old ++ b)).length (c :: (a' ++ old ++ b)) = _
    rw [show (c :: (a' ++ old ++ b)).length = (a' ++ old ++ b).length + 1 from rfl]
    simp only [pyReplaceAux]
    rw [if_neg (by rw [h0]; simp)]
    have ht : pyReplace old new (a' ++ old ++ b) = a' ++ new ++ pyReplace old new b := by
      apply ih
      intro i hi
      have h' := h (i + 1) (by simp; omega)
      rw [hsh, List.drop_succ_cons] at h'
      exact h'
    rw [show pyReplaceAux old new (a' ++ old ++ b).length (a' ++ old ++ b)
          = pyReplace old new (a' ++ old ++ b) from rfl]
    rw [ht]
    simp

theorem containsSub_self : ∀ pat : List Char, containsSub pat pat = true
  | [] => rfl
  | c :: t => by
    simp only [containsSub, Bool.or_eq_true]
    left
    rw [List.isPrefixOf_iff_prefix]

theorem noSplitOccur_head (old p : List Char) (rest : List (List Char))
    (h : noSplitOccur old (p :: rest) = true) :
    (∀ i, i < p.length →
        old.isPrefixOf ((joinSep old (p :: rest)).drop i) = false) ∧
      noSplitOccur old rest = true := by
  simp only [noSplitOccur, Bool.and_eq_true] at h
  refine ⟨?_, h.2⟩
  intro i hi
  have := List.all_eq_true.mp h.1 i (List.mem_range.mpr hi)
  simpa using this

theorem pyReplace_joinSep (old new : List Char) (hold : old ≠ []) :
    ∀ parts : List (List Char), noSplitOccur old parts = true →
      pyReplace old new (joinSep old parts) = joinSep new parts := by
  intro parts
  induction parts with
  | nil => intro _; rfl
  | cons p rest ih =>
    cases rest with
    | nil =>
      intro h
      obtain ⟨h1, _⟩ := noSplitOccur_head old p [] h
      simp only [joinSep] at h1 ⊢
      exact pyReplace_no_occur old new p h1
    | cons q rest' =>
      intro h
      obtain ⟨h1, h2⟩ := noSplitOccur_head old p (q :: rest') h
      have hj : joinSep old (p :: q :: rest') = p ++ old ++ joinSep old (q :: rest') :=
        rfl
      rw [hj] at h1
      show pyReplace old new (p ++ old ++ joinSep old (q :: rest'))
          = p ++ new ++ joinSep new (q :: rest')
      rw [pyReplace_append old new hold p (joinSep old (q :: rest')) h1]
      rw [ih h2]

theorem containsSub_joinSep_cons_cons (pat p q : List Char)
    (rest : List (List Char)) :
    containsSub pat (joinSep pat (p :: q :: rest)) = true := by
  show containsSub pat (p ++ pat ++ joinSep pat (q :: rest)) = true
  exact containsSub_append_left pat (p ++ pat) _
    (containsSub_append_right pat p pat (containsSub_self pat))

theorem splitFirst_append (sep : List Char) (hsep : sep ≠ []) :
    ∀ a b : List Char,
      (∀ i, i < a.length → sep.isPrefixOf ((a ++ sep ++ b).drop i) = false) →
      splitFirst sep (a ++ sep ++ b) = some (a, b) := by
  intro a
  induction a with
  | nil =>
    intro b _
    cases sep with
    | nil => exact absurd rfl hsep
    | cons o ot =>
      simp only [List.nil_append]
      have hp : (o :: ot).isPrefixOf ((o :: ot) ++ b) = true := by
        rw [List.isPrefixOf_iff_prefix]
        exact List.prefix_append _ _
      rw [show (o :: ot) ++ b = o :: (ot ++ b) from rfl] at hp ⊢
      simp only [splitFirst]
      rw [if_pos hp]
      have hdrop : (ot ++ b).drop ((o :: ot).length - 1) = b := by
        rw [show (o :: ot).length - 1 = ot.length from by simp]
        exact List.drop_left ot b
      rw [hdrop]
  | cons c a' ih =>
    intro b h
    have hsh : (c :: a') ++ sep ++ b = c :: (a' ++ sep ++ b) := by simp
    rw [hsh]
    have h0 : sep.isPrefixOf (c :: (a' ++ sep ++ b)) = false := by
      have h' := h 0 (by simp)
      rw [List.drop_zero, hsh] at h'
      exact h'
    simp only [splitFirst]
    rw [if_neg (by rw [h0]; simp)]
    have ht : splitFirst sep (a' ++ sep ++ b) = some (a', b) := by
      apply ih
      intro i hi
      have h' := h (i + 1) (by simp; omega)
      rw [hsh, List.drop_succ_cons] at h'
      exact h'
    rw [ht]

theorem splitFirst_eq_none (sep : List Char) :
    ∀ s, containsSub sep s = false → splitFirst sep s = none := by
  intro s
  induction s with
  | nil => intro _; rfl
  | cons c t ih =>
    intro h
    simp only [containsSub, Bool.or_eq_false_iff] at h
    simp only [splitFirst]
    rw [if_neg (by rw [h.1]; simp)]
    rw [ih h.2]

theorem foldl_append_eq {α : Type} (f : α → List Char) :
    ∀ (l : List α) (init : List Char),
      l.foldl (fun acc x => acc ++ f x) init = init ++ (l.map f).flatten := by
  intro l
  induction l with
  | nil => intro init; simp
  | cons x xs ih =>
    intro init
    simp only [List.foldl_cons, List.map_cons, List.flatten]
    rw [ih (init ++ f x)]
    simp

theorem buildExamples_eq (refs : List ExampleRef) :
    buildExamples refs = examplesHeader ++ (refs.map exampleBullet).flatten
      ++ examplesClosing := by
  simp only [buildExamples, foldl_append_eq]

theorem buildTests_eq (cfg : PageConfig) :
    buildTests cfg = testsHeader ++ (cfg.tests.map testBullet).flatten
      ++ testsTrailer cfg.test_filter := by
  simp only [buildTests, foldl_append_eq]

theorem insertedBlock_contains_marker (cfg : PageConfig) :
    containsSub codeMarker (insertedBlock cfg) = true := by
  have h1 : insertedBlock cfg = examplesHeader
      ++ ((cfg.examples.map exampleBullet).flatten ++ examplesClosing
        ++ (buildTests cfg ++ "\n## See Also".data)) := by
    rw [insertedBlock, buildExamples_eq]
    simp [List.append_assoc]
  rw [h1]
  exact containsSub_append_left codeMarker examplesHeader _ (by decide)

theorem lastSeg_slash (q : List Char) : lastSeg (q ++ ['/']) = [] := by
  simp [lastSeg, List.takeWhile]

theorem applyOnce_of_already {content : List Char} {cfg : PageConfig}
    (h : addSections content cfg = Outcome.skippedAlreadyPresent) :
    applyOnce content cfg = content := by
  simp [applyOnce, h]

theorem applyOnce_of_noAnchor {content : List Char} {cfg : PageConfig}
    (h : addSections content cfg = Outcome.skippedNoAnchor) :
    applyOnce content cfg = content := by
  simp [applyOnce, h]

theorem applyOnce_of_updated {content s : List Char} {cfg : PageConfig}
    (h : addSections content cfg = Outcome.updated s) :
    applyOnce content cfg = s := by
  simp [applyOnce, h]

example : containsSub "bc".data "abcd".data = true := by decide
example : pyReplace "b".data "XY".data "abab".data = "aXYaXY".data := by decide
example : splitFirst " - ".data "a/b.php - desc".data =
    some ("a/b.php".data, "desc".data) := by decide
example : lastSeg "tests-e2e/Symfony/".data = [] := by decide
example : lastSeg "a/b/c.php".data = "c.php".data := by decide
example : strip "  x y\n".data = "x y".data := by decide

example : addSections "x".data ⟨[], [], "F".data⟩ = Outcome.skippedNoAnchor := by decide

example : addSections docAnchored cfgEmpty =
    Outcome.updated (pyReplace anchorMark (insertedBlock cfgEmpty) docAnchored) := by decide

example : containsSub codeMarker (applyOnce docAnchored cfgEmpty) = true := by decide

example : runBatch [(Except.error FileErr.readFail, cfgEmpty),
    (Except.ok docAnchored, cfgEmpty)] = Except.error FileErr.readFail := by decide

/-! ### Claims -/

/-- C6: for every document whose text contains the literal marker
`"## Code Examples"`, the injector returns the Skipped (already present)
outcome and the document's content is left byte-identical to its input;
no write occurs. -/
theorem c6_already_present_skip (content : List Char) (cfg : PageConfig)
    (h : containsSub codeMarker content = true) :
    addSections content cfg = Outcome.skippedAlreadyPresent ∧
      applyOnce content cfg = content := by
  have ha : addSections content cfg = Outcome.skippedAlreadyPresent := by
    simp [addSections, h]
  exact ⟨ha, applyOnce_of_already ha⟩

/-- Witness for C6 at a concrete document already holding the marker. -/
theorem c6_witness :
    containsSub codeMarker "x\n## Code Examples\ny\n".data = true ∧
      (addSections "x\n## Code Examples\ny\n".data cfgEmpty
          = Outcome.skippedAlreadyPresent ∧
        applyOnce "x\n## Code Examples\ny\n".data cfgEmpty
          = "x\n## Code Examples\ny\n".data) :=
  ⟨by decide, c6_already_present_skip _ cfgEmpty (by decide)⟩

/-- C7: for every document whose text does not contain the literal marker
`"## See Also"` (and does not contain `"## Code Examples"`), the injector
returns the Skipped (no anchor) outcome and the document's content is left
byte-identical to its input; no write occurs. -/
theorem c7_missing_anchor_skip (content : List Char) (cfg : PageConfig)
    (h1 : containsSub anchorMark content = false)
    (h2 : containsSub codeMarker content = false) :
    addSections content cfg = Outcome.skippedNoAnchor ∧
      applyOnce content cfg = content := by
  have ha : addSections content cfg = Outcome.skippedNoAnchor := by
    simp [addSections, h1, h2]
  exact ⟨ha, applyOnce_of_noAnchor ha⟩

/-- Witness for C7 at a concrete document lacking both markers. -/
theorem c7_witness :
    containsSub anchorMark "# Title\n\nplain text\n".data = false ∧
      containsSub codeMarker "# Title\n\nplain text\n".data = false ∧
      (addSections "# Title\n\nplain text\n".data cfgEmpty = Outcome.skippedNoAnchor ∧
        applyOnce "# Title\n\nplain text\n".data cfgEmpty = "# Title\n\nplain text\n".data) :=
  ⟨by decide, by decide, c7_missing_anchor_skip _ cfgEmpty (by decide) (by decide)⟩

/-- C8: a config whose examples sequence is empty yields an examples block that
is exactly the header/intro text followed by the closing sentence with zero
bullet lines; a config whose tests sequence is empty yields a tests block that
is exactly the header/intro text followed by the command trailer with zero
bullet lines. -/
theorem c8_empty_lists (cfg cfgT : PageConfig)
    (hex : cfg.examples = []) (hts : cfgT.tests = []) :
    buildExamples cfg.examples = examplesHeader ++ examplesClosing ∧
      buildTests cfgT = testsHeader ++ testsTrailer cfgT.test_filter := by
  constructor
  · rw [hex]; rfl
  · simp [buildTests, hts]

/-- Witness for C8 at the concrete empty config. -/
theorem c8_witness :
    cfgEmpty.examples = [] ∧ cfgEmpty.tests = [] ∧
      (buildExamples cfgEmpty.examples = examplesHeader ++ examplesClosing ∧
        buildTests cfgEmpty = testsHeader ++ testsTrailer cfgEmpty.test_filter) :=
  ⟨rfl, rfl, c8_empty_lists cfgEmpty cfgEmpty rfl rfl⟩

/-- C9: for every config, the bullet lines of the examples block are exactly
the per-example bullets in the order of the config's examples sequence, and
the bullet lines of the tests block are exactly the per-test bullets in the
order of the config's tests sequence. -/
theorem c9_order_preserved (cfg : PageConfig) :
    buildExamples cfg.examples
        = examplesHeader ++ (cfg.examples.map exampleBullet).flatten
          ++ examplesClosing ∧
      buildTests cfg
        = testsHeader ++ (cfg.tests.map testBullet).flatten
          ++ testsTrailer cfg.test_filter :=
  ⟨buildExamples_eq cfg.examples, buildTests_eq cfg⟩

/-- C1: applying the injector twice to the same initial document yields the
same document text as applying it once; moreover, when the first application
actually updates (anchor present, marker absent), the inserted text contains
`"## Code Examples"`, so the second application takes the Skipped (already
present) branch and leaves the first application's text unchanged. -/
theorem c1_idempotent (content : List Char) (cfg : PageConfig) :
    applyOnce (applyOnce content cfg) cfg = applyOnce content cfg ∧
      (containsSub codeMarker content = false →
        containsSub anchorMark content = true →
        addSections (applyOnce content cfg) cfg = Outcome.skippedAlreadyPresent) := by
  by_cases h1 : containsSub codeMarker content = true
  · have ha : addSections content cfg = Outcome.skippedAlreadyPresent := by
      simp [addSections, h1]
    have hx : applyOnce content cfg = content := applyOnce_of_already ha
    refine ⟨by rw [hx, hx], ?_⟩
    intro h1' _
    rw [h1'] at h1
    exact absurd h1 (by simp)
  · have h1f : containsSub codeMarker content = false := by simpa using h1
    by_cases h2 : containsSub anchorMark content = true
    · have ha : addSections content cfg =
          Outcome.updated (pyReplace anchorMark (insertedBlock cfg) content) := by
        simp [addSections, h1f, h2]
      have hx : applyOnce content cfg
          = pyReplace anchorMark (insertedBlock cfg) content :=
        applyOnce_of_updated ha
      obtain ⟨x, y, hxy⟩ :=
        pyReplace_exists_mid anchorMark (insertedBlock cfg) content (by decide) h2
      have hcode : containsSub codeMarker (applyOnce content cfg) = true := by
        rw [hx, hxy]
        exact containsSub_middle codeMarker x _ y (insertedBlock_contains_marker cfg)
      have hskip : addSections (applyOnce content cfg) cfg
          = Outcome.skippedAlreadyPresent := by
        simp [addSections, hcode]
      exact ⟨applyOnce_of_already hskip, fun _ _ => hskip⟩
    · have h2f : containsSub anchorMark content = false := by simpa using h2
      have ha : addSections content cfg = Outcome.skippedNoAnchor := by
        simp [addSections, h1f, h2f]
      have hx : applyOnce content cfg = content := applyOnce_of_noAnchor ha
      refine ⟨by rw [hx, hx], ?_⟩
      intro _ h2t
      simp [h2t] at h2f

/-- Witness for C1 at a concrete anchored document: the second run is the
already-present skip and the text is stable. -/
theorem c1_witness :
    applyOnce (applyOnce docAnchored cfgEmpty) cfgEmpty
        = applyOnce docAnchored cfgEmpty ∧
      addSections (applyOnce docAnchored cfgEmpty) cfgEmpty
        = Outcome.skippedAlreadyPresent :=
  ⟨(c1_idempotent docAnchored cfgEmpty).1,
    (c1_idempotent docAnchored cfgEmpty).2 (by decide) (by decide)⟩

/-- C2 (counterexample): on a document in which the anchor `"## See Also"`
occurs twice (and `"## Code Examples"` not at all), the injector does NOT
produce the single-replace result the claim describes — `str.replace` on
line 204 replaces every occurrence, so the text after the first occurrence is
not byte-identical to the input. -/
theorem c2_counterexample :
    addSections docTwoAnchors cfgEmpty ≠
        Outcome.updated (replaceFirst anchorMark (insertedBlock cfgEmpty) docTwoAnchors) ∧
      addSections docTwoAnchors cfgEmpty =
        Outcome.updated ("A\n".data ++ insertedBlock cfgEmpty ++ "\nB\n".data
          ++ insertedBlock cfgEmpty ++ "\nC".data) := by
  constructor
  · decide
  · decide

/-- C2 (amended): for every input text in which the anchor marker
`"## See Also"` occurs more than once (and `"## Code Examples"` does not
occur), the injector replaces EVERY occurrence of the anchor with
examplesBlock + testsBlock + anchor; the text between and around the
occurrences is preserved byte-identically.  Any such text is
`joinSep anchorMark parts` for its `n + 1` anchor-free gap segments
(`n ≥ 2` occurrences means `parts.length ≥ 3`), with `noSplitOccur`
stating that the interleaved anchors are exactly the text's occurrences. -/
theorem c2_amended_replace_all (cfg : PageConfig) (parts : List (List Char))
    (hlen : 3 ≤ parts.length)
    (hcode : containsSub codeMarker (joinSep anchorMark parts) = false)
    (hocc : noSplitOccur anchorMark parts = true) :
    addSections (joinSep anchorMark parts) cfg =
      Outcome.updated (joinSep (insertedBlock cfg) parts) := by
  cases parts with
  | nil => simp at hlen
  | cons p rest =>
    cases rest with
    | nil => simp at hlen
    | cons q rest' =>
      have hanchor := containsSub_joinSep_cons_cons anchorMark p q rest'
      rw [addSections, if_neg (by rw [hcode]; simp), if_neg (by rw [hanchor]; simp)]
      congr 1
      exact pyReplace_joinSep anchorMark (insertedBlock cfg) (by decide) _ hocc

/-- Witness for C2 (amended) at a concrete three-anchor document. -/
theorem c2_amended_witness :
    3 ≤ (["A\n".data, "\nB\n".data, "\nMid\n".data, "\nC".data] : List (List Char)).length ∧
      containsSub codeMarker
        (joinSep anchorMark ["A\n".data, "\nB\n".data, "\nMid\n".data, "\nC".data]) = false ∧
      noSplitOccur anchorMark ["A\n".data, "\nB\n".data, "\nMid\n".data, "\nC".data] = true ∧
      addSections (joinSep anchorMark
          ["A\n".data, "\nB\n".data, "\nMid\n".data, "\nC".data]) cfgEmpty
        = Outcome.updated (joinSep (insertedBlock cfgEmpty)
            ["A\n".data, "\nB\n".data, "\nMid\n".data, "\nC".data]) :=
  ⟨by decide, by decide, by decide,
    c2_amended_replace_all cfgEmpty
      ["A\n".data, "\nB\n".data, "\nMid\n".data, "\nC".data]
      (by decide) (by decide) (by decide)⟩

/-- C3 (counterexample): with a batch of two documents whose first read fails,
the driver of `main` (which has no `try`/`except`) ends in the uncaught error
and never reports the summary count, while the error-catching driver the spec
describes would still process the second document and report a count of 1. -/
theorem c3_counterexample :
    runBatch [(Except.error FileErr.readFail, cfgEmpty),
        (Except.ok docAnchored, cfgEmpty)] = Except.error FileErr.readFail ∧
      specCatchingBatch [(Except.error FileErr.readFail, cfgEmpty),
        (Except.ok docAnchored, cfgEmpty)] = 1 := by
  constructor
  · rfl
  · decide

/-- C3 (amended): an error raised while processing one document is NOT caught
at the batch-driver level: after any prefix of successfully read documents,
the first failing document aborts the whole batch — the remaining documents
are not processed and the final summary count is never produced. -/
theorem c3_amended_error_propagates (pre : List (List Char × PageConfig))
    (e : FileErr) (cfg : PageConfig)
    (rest : List (Except FileErr (List Char) × PageConfig)) :
    runBatch (pre.map (fun pc => (Except.ok pc.1, pc.2))
      ++ (Except.error e, cfg) :: rest) = Except.error e := by
  induction pre with
  | nil => rfl
  | cons p ps ih =>
    simp only [List.map_cons, List.cons_append, runBatch]
    cases h : addSections p.1 p.2 <;> simp [processDoc, h, ih]

/-- C4 (counterexample): for the configured Symfony page, the generated tests
block nowhere contains a fence whose content starts directly with the command
line — the claim's single-line fence is absent — because the fence the script
emits opens with the extra comment line `# Run tests`. -/
theorem c4_counterexample :
    containsSub ("```bash\ntask test:unit -- --filter=Symfony".data)
        (buildTests symfonyConfig) = false ∧
      containsSub ("```bash\n# Run tests\ntask test:unit -- --filter=Symfony".data)
        (buildTests symfonyConfig) = true := by
  constructor
  · decide
  · decide

/-- C4 (amended): for every config, the tests block ends with a fenced command
block whose content is two lines — the comment line `# Run tests` followed by
`task test:unit -- --filter=<testFilterLabel>` with the config's test_filter
value substituted verbatim — and nothing else inside the fence. -/
theorem c4_amended_fence_two_lines (cfg : PageConfig) :
    ("```bash\n# Run tests\ntask test:unit -- --filter=".data ++ cfg.test_filter
      ++ "\n```\n".data) <:+ buildTests cfg := by
  have hlit : ("\nRun the tests:\n\n```bash\n# Run tests\ntask test:unit -- --filter=".data
        : List Char)
      = "\nRun the tests:\n\n".data
        ++ "```bash\n# Run tests\ntask test:unit -- --filter=".data := by decide
  have h : testsTrailer cfg.test_filter = "\nRun the tests:\n\n".data
      ++ ("```bash\n# Run tests\ntask test:unit -- --filter=".data ++ cfg.test_filter
        ++ "\n```\n".data) := by
    rw [testsTrailer, hlit]
    simp [List.append_assoc]
  rw [buildTests, h, ← List.append_assoc]
  exact List.suffix_append _ _

/-- C5: a test entry with a description (`path - desc`) renders a bullet whose
visible link label is the final path segment of the path (computed from the
string alone), the URL is base + path, and `" - "` plus the description is
appended; an entry without a description renders the same bullet shape but
ends directly after the closing parenthesis of the link, with no trailing
separator or description. -/
theorem c5_test_bullet_label (p d t : List Char)
    (hp : strip p = p) (hd : strip d = d) (ht : strip t = t)
    (hocc : ∀ i, i < p.length →
      sepDash.isPrefixOf ((p ++ sepDash ++ d).drop i) = false)
    (hno : containsSub sepDash t = false) :
    testBullet (p ++ sepDash ++ d)
        = "- [".data ++ lastSeg p ++ "](".data ++ baseURL ++ p ++ ") - ".data
          ++ d ++ "\n".data ∧
      testBullet t
        = "- [".data ++ lastSeg t ++ "](".data ++ baseURL ++ t ++ ")\n".data := by
  constructor
  · have hs := splitFirst_append sepDash (by decide) p d hocc
    simp only [testBullet, hs]
    rw [hp, hd]
  · have hn := splitFirst_eq_none sepDash t hno
    simp only [testBullet, hn]
    rw [ht]

/-- Witness for C5 at a concrete described entry and a concrete bare entry. -/
theorem c5_witness :
    strip "tests/Unit/SimpleDTO/CastTest.php".data
        = "tests/Unit/SimpleDTO/CastTest.php".data ∧
      strip "Cast tests".data = "Cast tests".data ∧
      strip "tests/Plain.php".data = "tests/Plain.php".data ∧
      (testBullet ("tests/Unit/SimpleDTO/CastTest.php".data ++ sepDash
            ++ "Cast tests".data)
          = "- [".data ++ lastSeg "tests/Unit/SimpleDTO/CastTest.php".data
            ++ "](".data ++ baseURL ++ "tests/Unit/SimpleDTO/CastTest.php".data
            ++ ") - ".data ++ "Cast tests".data ++ "\n".data ∧
        testBullet "tests/Plain.php".data
          = "- [".data ++ lastSeg "tests/Plain.php".data ++ "](".data ++ baseURL
            ++ "tests/Plain.php".data ++ ")\n".data) :=
  ⟨by decide, by decide, by decide,
    c5_test_bullet_label "tests/Unit/SimpleDTO/CastTest.php".data "Cast tests".data
      "tests/Plain.php".data (by decide) (by decide) (by decide) (by decide) (by decide)⟩

/-- C10: a test entry whose relative path ends with the separator `"/"` renders
a bullet whose visible link label is the empty string, so the bullet has the
shape `- [](<url>) - <description>`. -/
theorem c10_trailing_slash_empty_label (q d : List Char)
    (hp : strip (q ++ ['/']) = q ++ ['/']) (hd : strip d = d)
    (hocc : ∀ i, i < (q ++ ['/']).length →
      sepDash.isPrefixOf (((q ++ ['/']) ++ sepDash ++ d).drop i) = false) :
    testBullet ((q ++ ['/']) ++ sepDash ++ d)
      = "- [](".data ++ baseURL ++ (q ++ ['/']) ++ ") - ".data ++ d ++ "\n".data := by
  have hs := splitFirst_append sepDash (by decide) (q ++ ['/']) d hocc
  simp only [testBullet, hs]
  rw [hp, hd, lastSeg_slash]
  have hlit : ("- [".data ++ ([] : List Char) ++ "](".data) = "- [](".data := by decide
  rw [hlit]

/-- Witness for C10 at the configured entry
`"tests-e2e/Symfony/ - End-to-end Symfony tests"` of the Symfony page. -/
theorem c10_witness :
    ("tests-e2e/Symfony".data ++ ['/']) ++ sepDash ++ "End-to-end Symfony tests".data
        ∈ symfonyConfig.tests ∧
      testBullet (("tests-e2e/Symfony".data ++ ['/']) ++ sepDash
          ++ "End-to-end Symfony tests".data)
        = "- [](".data ++ baseURL ++ ("tests-e2e/Symfony".data ++ ['/'])
          ++ ") - ".data ++ "End-to-end Symfony tests".data ++ "\n".data :=
  ⟨by decide, c10_trailing_slash_empty_label "tests-e2e/Symfony".data
    "End-to-end Symfony tests".data (by decide) (by decide) (by decide)⟩

end DocInjector
